import Mathlib

/-!
Verification of the modal-logic core of the neuro-symbolic diagnostics
repository: the formula grammar and evaluator (`modal_logic.py`), the Kripke
model data structure and its rule-consistency use (`agents.py`), the lattice
connectivity index (`knowledge.py`) and the diagnosis orchestration algorithm
(`agents.py`).  Python dictionaries and sets are embedded as association
lists / lists; membership is what matters everywhere the code consults them.
-/

namespace NeuroSymbolic

/-- AST of modal formulas, mirroring the tagged tuples produced by
`ModalTransformer` in `modal_logic.py` (`('proposition', name)`,
`('negation', f)`, `('conjunction', f, g)`, ...). -/
inductive Formula where
  | proposition : String → Formula
  | negation : Formula → Formula
  | conjunction : Formula → Formula → Formula
  | disjunction : Formula → Formula → Formula
  | implication : Formula → Formula → Formula
  | equivalence : Formula → Formula → Formula
  | necessity : Formula → Formula
  | possibility : Formula → Formula
deriving DecidableEq, Repr

/-- The `KripkeModel` from `modal_logic.py`: worlds, accessibility relations,
valuations (world ↦ set of true propositions) and a designated current world.
Python's sets and dict are embedded as lists / an association list; all code
under verification consults them only through membership and keyed lookup. -/
structure KripkeModel where
  worlds : List String
  relations : List (String × String)
  valuations : List (String × List String)
  current_world : String
deriving DecidableEq, Repr

/-- The `model.valuations.get(world, set())`: keyed lookup with empty default. -/
def valuationOf (m : KripkeModel) (w : String) : List String :=
  match m.valuations.lookup w with
  | some ps => ps
  | none => []

/-- The `[u for w, u in model.relations if w == world]`: the worlds accessible
from `world`. -/
def accessibleFrom (m : KripkeModel) (world : String) : List String :=
  (m.relations.filter (fun r => r.1 == world)).map (fun r => r.2)

/-- The `evaluate` from `modal_logic.py`: recursive truth evaluation of a formula
at a world of a Kripke model. -/
def evaluate (m : KripkeModel) : String → Formula → Bool
  | w, .proposition p => (valuationOf m w).contains p
  | w, .negation f => !(evaluate m w f)
  | w, .conjunction f g => evaluate m w f && evaluate m w g
  | w, .disjunction f g => evaluate m w f || evaluate m w g
  | w, .implication f g => !(evaluate m w f) || evaluate m w g
  | w, .equivalence f g => evaluate m w f == evaluate m w g
  | w, .necessity f =>
      let accessible := accessibleFrom m w
      if accessible.isEmpty then true
      else accessible.all (fun u => evaluate m u f)
  | w, .possibility f =>
      let accessible := accessibleFrom m w
      accessible.any (fun u => evaluate m u f)

/-- Tokens of the modal grammar `MODAL_GRAMMAR` in `modal_logic.py`:
identifiers (CNAME) and the operators `~ & | -> <-> [] <> ( )`. -/
inductive Tok where
  | name : String → Tok
  | tnot : Tok
  | tand : Tok
  | tor : Tok
  | timpl : Tok
  | tequiv : Tok
  | tbox : Tok
  | tdia : Tok
  | lparen : Tok
  | rparen : Tok
deriving DecidableEq, Repr

/-- First character of a CNAME: letter or underscore. -/
def isIdentStart (c : Char) : Bool := c.isAlpha || c == '_'

/-- Subsequent character of a CNAME: letter, digit or underscore. -/
def isIdentChar (c : Char) : Bool := c.isAlphanum || c == '_'

/-- Lexer for the modal grammar (Lark's terminals with `%ignore WS`):
fuel-indexed so that it is structurally recursive; `none` models a lexing
error on a character outside the grammar. -/
def tokenizeFuel : Nat → List Char → Option (List Tok)
  | 0, _ => none
  | _ + 1, [] => some []
  | fuel + 1, c :: cs =>
    if c == ' ' || c == '\t' || c == '\n' || c == '\r' then
      tokenizeFuel fuel cs
    else if c == '~' then (tokenizeFuel fuel cs).map (Tok.tnot :: ·)
    else if c == '&' then (tokenizeFuel fuel cs).map (Tok.tand :: ·)
    else if c == '|' then (tokenizeFuel fuel cs).map (Tok.tor :: ·)
    else if c == '(' then (tokenizeFuel fuel cs).map (Tok.lparen :: ·)
    else if c == ')' then (tokenizeFuel fuel cs).map (Tok.rparen :: ·)
    else if c == '[' then
      match cs with
      | ']' :: cs' => (tokenizeFuel fuel cs').map (Tok.tbox :: ·)
      | _ => none
    else if c == '<' then
      match cs with
      | '-' :: '>' :: cs' => (tokenizeFuel fuel cs').map (Tok.tequiv :: ·)
      | '>' :: cs' => (tokenizeFuel fuel cs').map (Tok.tdia :: ·)
      | _ => none
    else if c == '-' then
      match cs with
      | '>' :: cs' => (tokenizeFuel fuel cs').map (Tok.timpl :: ·)
      | _ => none
    else if isIdentStart c then
      let run := cs.takeWhile isIdentChar
      let rest := cs.dropWhile isIdentChar
      (tokenizeFuel fuel rest).map (Tok.name (String.mk (c :: run)) :: ·)
    else none

/-- Tokenize a formula source string.  The fuel bound `length + 1` is enough:
every step consumes at least one character. -/
def tokenize (s : String) : Option (List Tok) :=
  tokenizeFuel (s.toList.length + 1) s.toList

/-- Result of a parsing level: the parsed formula and the remaining tokens. -/
abbrev PRes := Option (Formula × List Tok)

mutual

/-- The `?start: expression` / `?expression: equivalence` of `MODAL_GRAMMAR`. -/
def parseExpression : Nat → List Tok → PRes
  | 0, _ => none
  | fuel + 1, ts => parseEquivalence fuel ts

/-- The `?equivalence: implication ("<->" implication)*`, left-folded by
`ModalTransformer._reduce_args`. -/
def parseEquivalence : Nat → List Tok → PRes
  | 0, _ => none
  | fuel + 1, ts =>
    match parseImplication fuel ts with
    | some (f, ts') => parseEquivalenceRest fuel f ts'
    | none => none

/-- Chain continuation for `<->`, folding to the left. -/
def parseEquivalenceRest : Nat → Formula → List Tok → PRes
  | 0, _, _ => none
  | fuel + 1, acc, Tok.tequiv :: ts =>
    match parseImplication fuel ts with
    | some (g, ts') => parseEquivalenceRest fuel (.equivalence acc g) ts'
    | none => none
  | _ + 1, acc, ts => some (acc, ts)

/-- The `?implication: disjunction ("->" disjunction)*`, left-folded. -/
def parseImplication : Nat → List Tok → PRes
  | 0, _ => none
  | fuel + 1, ts =>
    match parseDisjunction fuel ts with
    | some (f, ts') => parseImplicationRest fuel f ts'
    | none => none

/-- Chain continuation for `->`, folding to the left. -/
def parseImplicationRest : Nat → Formula → List Tok → PRes
  | 0, _, _ => none
  | fuel + 1, acc, Tok.timpl :: ts =>
    match parseDisjunction fuel ts with
    | some (g, ts') => parseImplicationRest fuel (.implication acc g) ts'
    | none => none
  | _ + 1, acc, ts => some (acc, ts)

/-- The `?disjunction: conjunction ("|" conjunction)*`, left-folded. -/
def parseDisjunction : Nat → List Tok → PRes
  | 0, _ => none
  | fuel + 1, ts =>
    match parseConjunction fuel ts with
    | some (f, ts') => parseDisjunctionRest fuel f ts'
    | none => none

/-- Chain continuation for `|`, folding to the left. -/
def parseDisjunctionRest : Nat → Formula → List Tok → PRes
  | 0, _, _ => none
  | fuel + 1, acc, Tok.tor :: ts =>
    match parseConjunction fuel ts with
    | some (g, ts') => parseDisjunctionRest fuel (.disjunction acc g) ts'
    | none => none
  | _ + 1, acc, ts => some (acc, ts)

/-- The `?conjunction: negation ("&" negation)*`, left-folded. -/
def parseConjunction : Nat → List Tok → PRes
  | 0, _ => none
  | fuel + 1, ts =>
    match parseNegation fuel ts with
    | some (f, ts') => parseConjunctionRest fuel f ts'
    | none => none

/-- Chain continuation for `&`, folding to the left. -/
def parseConjunctionRest : Nat → Formula → List Tok → PRes
  | 0, _, _ => none
  | fuel + 1, acc, Tok.tand :: ts =>
    match parseNegation fuel ts with
    | some (g, ts') => parseConjunctionRest fuel (.conjunction acc g) ts'
    | none => none
  | _ + 1, acc, ts => some (acc, ts)

/-- The `?negation: "~" negation -> negation | modal`. -/
def parseNegation : Nat → List Tok → PRes
  | 0, _ => none
  | fuel + 1, Tok.tnot :: ts =>
    match parseNegation fuel ts with
    | some (f, ts') => some (.negation f, ts')
    | none => none
  | fuel + 1, ts => parseModal fuel ts

/-- The `?modal: "[]" negation -> necessity | "<>" negation -> possibility | atom`.
Note the modal operators take a `negation`-level argument, so unaries nest. -/
def parseModal : Nat → List Tok → PRes
  | 0, _ => none
  | fuel + 1, Tok.tbox :: ts =>
    match parseNegation fuel ts with
    | some (f, ts') => some (.necessity f, ts')
    | none => none
  | fuel + 1, Tok.tdia :: ts =>
    match parseNegation fuel ts with
    | some (f, ts') => some (.possibility f, ts')
    | none => none
  | fuel + 1, ts => parseAtom fuel ts

/-- The `?atom: CNAME -> proposition | "(" expression ")"`. -/
def parseAtom : Nat → List Tok → PRes
  | 0, _ => none
  | _ + 1, Tok.name n :: ts => some (.proposition n, ts)
  | fuel + 1, Tok.lparen :: ts =>
    match parseExpression fuel ts with
    | some (f, Tok.rparen :: ts') => some (f, ts')
    | _ => none
  | _ + 1, _ => none

end

/-- Parse a full token stream; trailing tokens are a syntax error, as for
Lark's `start` rule.  The fuel bound suffices because the grammar descends at
most eight levels without consuming a token. -/
def parseTokens (ts : List Tok) : Option Formula :=
  match parseExpression (16 * ts.length + 16) ts with
  | some (f, []) => some f
  | _ => none

/-- The `ModalParser.parse` from `modal_logic.py`; `none` models the
`SyntaxError` raised by Lark on malformed input. -/
def parse (s : String) : Option Formula :=
  match tokenize s with
  | some ts => parseTokens ts
  | none => none

/-- The `ModalParser.check` from `modal_logic.py`: parse a formula string and
evaluate it at the model's current world.  `none` models the exception
escaping when the formula does not parse. -/
def check (m : KripkeModel) (s : String) : Option Bool :=
  (parse s).map (evaluate m m.current_world)

/-- Python set insertion (`s.add(p)`): membership-based, no duplicates. -/
def setInsert (p : String) (ps : List String) : List String :=
  if ps.contains p then ps else ps ++ [p]

/-- The `valuations.setdefault(world, set()).add(prop)` from
`_is_hypothesis_valid`: update the (first) entry for `world`, or insert a new
entry holding only `prop` when `world` is absent. -/
def addPropAt : List (String × List String) → String → String → List (String × List String)
  | [], w, p => [(w, [p])]
  | (w', ps) :: t, w, p =>
      if w' == w then (w', setInsert p ps) :: t
      else (w', ps) :: addPropAt t w p

/-- The hypothetical model built inside `_is_hypothesis_valid`: a deep copy
of the agent's model with the candidate proposition added to the current
world's valuation. (On the pure embedding the deep copy is the identity; the
aliasing content of `KripkeModel.copy` is verified separately on a heap-based
embedding below.) -/
def hypotheticalModel (m : KripkeModel) (prop : String) : KripkeModel :=
  { m with valuations := addPropAt m.valuations m.current_world prop }

/-- The rule loop of `_is_hypothesis_valid`: check each rule in order against
the model; `some false` at the first violated rule, `none` when a rule fails
to parse (the exception escaping `ModalParser.check`). -/
def checkRules (m : KripkeModel) : List String → Option Bool
  | [] => some true
  | r :: rs =>
    match check m r with
    | none => none
    | some b => if b then checkRules m rs else some false

/-- The `_is_hypothesis_valid` from `agents.py`: with no expert rules the check
trivially passes; otherwise every rule is evaluated against the hypothetical
extension of the agent's model. -/
def is_hypothesis_valid (m : KripkeModel) (rules : List String) (prop : String) :
    Option Bool :=
  if rules.isEmpty then some true
  else checkRules (hypotheticalModel m prop) rules

/-- The `EXPERT_RULES` from `expert_rules.py`. -/
def EXPERT_RULES : List String :=
  [ "[] (rf_temp_high -> <>cooling_fault_reported)",
    "[] (klystron_fault_reported -> rf_power_fault_reported)",
    "[] ~(cooling_fault_reported & klystron_fault_reported)",
    "[] (vacuum_fault_reported -> ~<>rf_fault_is_root_cause)" ]

/-- The `AcceleratorDiagnostics` agent's initial Kripke model from
`create_agent` in `agents.py`. -/
def diagnosticsKripke : KripkeModel :=
  { worlds := ["w0", "w1", "w2", "w3", "w4"],
    relations := [("w0", "w1"), ("w0", "w2"), ("w0", "w3"), ("w0", "w4")],
    valuations :=
      [ ("w0", ["system_nominal"]),
        ("w1", ["rf_fault_reported"]),
        ("w2", ["cooling_fault_reported"]),
        ("w3", ["klystron_fault_reported", "rf_power_fault_reported"]),
        ("w4", ["vacuum_fault_reported"]) ],
    current_world := "w0" }

/-- A component of the lattice layout (`knowledge.py`): type tag,
description, direct connections by relation type, serviced components and
owned sensor PVs.  Absent fields of the Python dicts are empty here, matching
the `.get(..., default)` accesses. -/
structure Component where
  ctype : String := ""
  description : String := ""
  connected_to : List (String × String) := []
  services : List String := []
  sensors : List String := []
deriving DecidableEq, Repr

/-- The `LATTICE_LAYOUT` from `knowledge.py`. -/
def LATTICE_LAYOUT : List (String × Component) :=
  [ ("RF:cavity",
      { ctype := "RF_Cavity",
        description := "Main Radio-Frequency cavity for accelerating the beam. Highly sensitive to temperature fluctuations.",
        connected_to :=
          [ ("cooling", "COOL:primary_loop"), ("power", "RF:klystron"),
            ("beamline", "BL:1"), ("vacuum", "VAC:sector1_pump") ] }),
    ("RF:klystron",
      { ctype := "Klystron",
        description := "High-power amplifier that generates the radio-frequency waves for the RF cavity.",
        services := ["RF:cavity"],
        sensors := ["RF:klystron:voltage", "RF:klystron_output"] }),
    ("COOL:primary_loop",
      { ctype := "Cooling_Loop",
        description := "Main deionized water cooling loop for critical, high-heat components like the RF cavity and magnets.",
        services := ["RF:cavity", "MAG:quad_1A"],
        sensors := ["COOL:water_pressure", "COOL:valve_position"] }),
    ("COOL:secondary_loop",
      { ctype := "Cooling_Loop",
        description := "Secondary, lower-priority cooling loop for non-critical diagnostics and electronics racks.",
        services := ["DIAG:screen_monitor"],
        sensors := [] }),
    ("MAG:quad_1A",
      { ctype := "Quadrupole_Magnet",
        description := "A powerful focusing quadrupole magnet located in Sector 1A. Requires stable power and cooling.",
        connected_to :=
          [ ("power", "PS:quad_1A"), ("cooling", "COOL:primary_loop"),
            ("beamline", "BL:1") ] }),
    ("PS:quad_1A",
      { ctype := "Power_Supply",
        description := "High-precision power supply dedicated to the 1A quadrupole magnet.",
        services := ["MAG:quad_1A"],
        sensors := ["PS:quad_1A:current", "PS:quad_1A:voltage"] }),
    ("VAC:sector1_pump",
      { ctype := "Ion_Pump",
        description := "Primary ion pump for maintaining ultra-high vacuum in Sector 1. A leak here affects the whole sector.",
        services := ["RF:cavity", "BPM:1A"],
        sensors := ["VAC:sector1_pump:pressure"] }),
    ("BPM:1A",
      { ctype := "Beam_Position_Monitor",
        description := "Beam Position Monitor in Sector 1A. Measures the precise transverse position of the beam.",
        connected_to := [("beamline", "BL:1"), ("vacuum", "VAC:sector1_pump")] }) ]

/-- Contiguous-substring test on character lists (Python's `needle in hay`
on strings). -/
def charsContain (needle : List Char) : List Char → Bool
  | [] => needle.isEmpty
  | c :: t => needle.isPrefixOf (c :: t) || charsContain needle t

/-- Python's `needle in hay` for strings. -/
def strContains (hay needle : String) : Bool :=
  charsContain needle.toList hay.toList

/-- The `LatticeModel._find_component_by_sensor` from `knowledge.py`: first
component whose `sensors` list holds the PV, else three hard-coded substring
fallbacks, else `none`. -/
def find_component_by_sensor (layout : List (String × Component))
    (sensor_pv : String) : Option String :=
  match layout.find? (fun e => e.2.sensors.contains sensor_pv) with
  | some e => some e.1
  | none =>
    if strContains sensor_pv "COOL:water_pressure" then some "COOL:primary_loop"
    else if strContains sensor_pv "PS:quad_1A" then some "PS:quad_1A"
    else if strContains sensor_pv "VAC:sector1_pump" then some "VAC:sector1_pump"
    else none

/-- Result of a connectivity query: the verdict and its human-readable
justification string. -/
structure ConnectionResult where
  connected : Bool
  reason : String
deriving DecidableEq, Repr

/-- The `self.layout.get(component_id, {}).get("services", [])` from
`knowledge.py`. -/
def services_of (layout : List (String × Component)) (component_id : String) :
    List String :=
  match layout.lookup component_id with
  | some ci => ci.services
  | none => []

/-- The `LatticeModel.are_components_connected` from `knowledge.py`. -/
def are_components_connected (layout : List (String × Component))
    (upstream_component_pv downstream_component_pv connection_type : String) :
    ConnectionResult :=
  match find_component_by_sensor layout upstream_component_pv with
  | none =>
      { connected := false,
        reason := "Connection check failed: The upstream PV '" ++
          upstream_component_pv ++
          "' does not map to a known component in the lattice model." }
  | some upstream_component =>
    match layout.lookup downstream_component_pv with
    | none =>
        { connected := false,
          reason := "Connection check failed: The downstream component '" ++
            downstream_component_pv ++
            "' does not exist in the lattice model." }
    | some downstream_info =>
      if downstream_info.connected_to.lookup connection_type == some upstream_component then
        { connected := true,
          reason := "Connection verified: The downstream component '" ++
            downstream_component_pv ++ "' explicitly lists '" ++
            upstream_component ++ "' as its '" ++ connection_type ++ "' source." }
      else
        let services := services_of layout upstream_component
        if services.contains downstream_component_pv then
          { connected := true,
            reason := "Connection verified: The upstream component '" ++
              upstream_component ++ "' lists '" ++
              downstream_component_pv ++ "' in its services." }
        else
          { connected := false,
            reason := "Connection check failed: No physical '" ++ connection_type ++
              "' connection was found between the upstream component '" ++
              upstream_component ++ "' and the downstream component '" ++
              downstream_component_pv ++ "' in the lattice model." }

/-- The `check_connection` branch of `NeuroSymbolicAgent.process_query`:
only the `LatticeLayoutAgent` answers; the status is `affirmative` exactly
when the connectivity check is positive. -/
def process_query_check_connection (agent_name : String)
    (layout : List (String × Component)) (upstream downstream ty : String) :
    String × String :=
  if agent_name == "LatticeLayoutAgent" then
    let r := are_components_connected layout upstream downstream ty
    (if r.connected then "affirmative" else "negative", r.reason)
  else ("unknown", "I cannot answer this query.")

/-- The causal theory returned by the oracle (`_get_causal_theory_from_llm`):
root-cause agent, symptom agent and explanation text. -/
structure CausalTheory where
  root_cause_agent : String
  symptom_agent : String
  causal_theory : String
deriving DecidableEq, Repr

/-- The `agent_to_pv_map` from `diagnose_system_state`. -/
def agent_to_pv_map (agent : String) : Option String :=
  List.lookup agent
    [ ("Cooling_Agent", "COOL:valve_position"),
      ("Klystron_Agent", "RF:klystron_output"),
      ("RF_Agent", "RF:cavity"),
      ("Vacuum_Agent", "VAC:sector1_pump:pressure") ]

/-- The `connection_type_map.get(agent, "unknown")` from
`diagnose_system_state`. -/
def connection_type_for (agent : String) : String :=
  (List.lookup agent [("Cooling_Agent", "cooling"), ("Klystron_Agent", "power")]).getD
    "unknown"

/-- The candidate proposition derived from an agent name in
`diagnose_system_state`: `agent.split('_')[0].lower() + "_fault_reported"`.
`split('_')[0]` is the prefix before the first underscore (the whole string
when there is none); the agent names in play are ASCII, where `str.lower`
agrees with `Char.toLower`. -/
def proposition_for (agent : String) : String :=
  String.mk ((agent.toList.takeWhile (fun c => c != '_')).map Char.toLower) ++
    "_fault_reported"

/-- The `NeuroSymbolicAgent.diagnose_system_state` from `agents.py`, with the
oracle's reply abstracted as the `theory` parameter (`none` covers an oracle
failure as well as a structurally incomplete reply).  `reports` holds the
senders of the pending reports (the dict keys; only membership and count are
consulted on the verified paths).  The result is the returned agent pair
(`some []` for the rejection paths); `none` models the exception escaping
when an expert rule fails to parse. -/
def diagnose_system_state (reports : List String) (theory : Option CausalTheory)
    (km : KripkeModel) (rules : List String)
    (lattice_name : String) (layout : List (String × Component)) :
    Option (List String) :=
  if reports.length < 2 then some []
  else
    match theory with
    | none => some []
    | some t =>
      if !(reports.contains t.root_cause_agent && reports.contains t.symptom_agent) then
        some []
      else
        match is_hypothesis_valid km rules (proposition_for t.root_cause_agent) with
        | none => none
        | some false => some []
        | some true =>
          match agent_to_pv_map t.root_cause_agent, agent_to_pv_map t.symptom_agent with
          | some upstream_pv, some downstream_pv =>
            let conn_type := connection_type_for t.root_cause_agent
            let response :=
              process_query_check_connection lattice_name layout upstream_pv
                downstream_pv conn_type
            if response.1 == "affirmative" then
              some [t.root_cause_agent, t.symptom_agent]
            else
              let root_agent := t.symptom_agent
              let symptom_agent := t.root_cause_agent
              match is_hypothesis_valid km rules (proposition_for root_agent) with
              | none => none
              | some false => some []
              | some true =>
                match agent_to_pv_map root_agent, agent_to_pv_map symptom_agent with
                | some upstream_pv2, some downstream_pv2 =>
                  let conn_type2 := connection_type_for root_agent
                  let response2 :=
                    process_query_check_connection lattice_name layout upstream_pv2
                      downstream_pv2 conn_type2
                  if response2.1 == "affirmative" then some [root_agent, symptom_agent]
                  else some []
                | _, _ => some []
          | _, _ => some []

end NeuroSymbolic

namespace NeuroSymbolic

/-- A world with no outgoing edge has an empty accessible list. -/
theorem accessibleFrom_eq_nil_of_no_edge (m : KripkeModel) (w : String)
    (h : ∀ u, (w, u) ∉ m.relations) : accessibleFrom m w = [] := by
  unfold accessibleFrom
  have hfil : m.relations.filter (fun r => r.1 == w) = [] := by
    rw [List.filter_eq_nil_iff]
    intro r hr
    cases r with
    | mk a b =>
      by_cases hb : a = w
      · subst hb; exact absurd hr (h b)
      · simp [hb]
  rw [hfil]
  rfl

end NeuroSymbolic

namespace NeuroSymbolic

/-- Lookups at keys other than the updated one are unaffected by
`setdefault(...).add(...)`. -/
theorem lookup_addPropAt_ne (w p u : String) (h : u ≠ w) :
    ∀ vals : List (String × List String),
      List.lookup u (addPropAt vals w p) = List.lookup u vals := by
  intro vals
  induction vals with
  | nil =>
    have hb : (u == w) = false := by simp [h]
    simp [addPropAt, List.lookup, hb]
  | cons e t ih =>
    cases e with
    | mk w' ps =>
      by_cases hw : w' = w
      · subst hw
        have hb : (u == w') = false := by simp [h]
        simp [addPropAt, List.lookup, hb]
      · have hb : (w' == w) = false := by simp [hw]
        by_cases hu : u = w'
        · subst hu
          simp [addPropAt, List.lookup, hb]
        · have hb2 : (u == w') = false := by simp [hu]
          simp [addPropAt, List.lookup, hb, hb2, ih]

/-- The updated key holds its prior set (empty when absent) with the new
proposition inserted. -/
theorem lookup_addPropAt_self (w p : String) :
    ∀ vals : List (String × List String),
      List.lookup w (addPropAt vals w p) =
        some (setInsert p ((List.lookup w vals).getD [])) := by
  intro vals
  induction vals with
  | nil => simp [addPropAt, List.lookup, setInsert]
  | cons e t ih =>
    cases e with
    | mk w' ps =>
      by_cases hw : w' = w
      · subst hw
        simp [addPropAt, List.lookup]
      · have hwd : w ≠ w' := fun hh => hw hh.symm
        have hb : (w' == w) = false := by simp [hw]
        have hb2 : (w == w') = false := by simp [hwd]
        simp [addPropAt, List.lookup, hb, hb2, ih]

/-- The `hypotheticalModel` leaves valuations of other worlds alone. -/
theorem valuationOf_hypotheticalModel_ne (m : KripkeModel) (p u : String)
    (h : u ≠ m.current_world) :
    valuationOf (hypotheticalModel m p) u = valuationOf m u := by
  unfold valuationOf hypotheticalModel
  rw [lookup_addPropAt_ne m.current_world p u h]

/-- The `hypotheticalModel` inserts the candidate into the current world's set. -/
theorem valuationOf_hypotheticalModel_self (m : KripkeModel) (p : String) :
    valuationOf (hypotheticalModel m p) m.current_world =
      setInsert p (valuationOf m m.current_world) := by
  unfold valuationOf hypotheticalModel
  rw [lookup_addPropAt_self m.current_world p]
  cases h : List.lookup m.current_world m.valuations <;> simp [h]

/-- The inserted proposition is a member afterwards. -/
theorem setInsert_contains_self (p : String) (ps : List String) :
    (setInsert p ps).contains p = true := by
  unfold setInsert
  by_cases h : p ∈ ps
  · simp [h]
  · simp [h]

/-- Insertion preserves prior members. -/
theorem setInsert_contains_of_mem (p q : String) (ps : List String)
    (h : q ∈ ps) : (setInsert p ps).contains q = true := by
  unfold setInsert
  by_cases hc : p ∈ ps <;> simp [hc, h]

end NeuroSymbolic

/-- C3 (counterexample): the claim quantifies over *every* Kripke model whose
current-world valuation holds `klystron_fault_reported`, but the rule is a
necessity evaluated at the current world: in a model whose current world has
no outgoing accessibility edge it holds vacuously, so the consistency check
*accepts* candidate `cooling_fault_reported`. -/
theorem C3_counterexample :
    "klystron_fault_reported" ∈
        NeuroSymbolic.valuationOf
          ⟨["w0"], [], [("w0", ["klystron_fault_reported"])], "w0"⟩ "w0" ∧
      NeuroSymbolic.is_hypothesis_valid
        ⟨["w0"], [], [("w0", ["klystron_fault_reported"])], "w0"⟩
        ["[] ~(cooling_fault_reported & klystron_fault_reported)"]
        "cooling_fault_reported" = some true := by
  constructor
  · decide
  · decide

/-- C3 (amended): for every Kripke model whose current world is accessible
from itself and whose current-world valuation already contains
`klystron_fault_reported`, the rule consistency check with candidate
`cooling_fault_reported` against the rule
`"[] ~(cooling_fault_reported & klystron_fault_reported)"` rejects the
hypothesis. -/
theorem C3_consistency_check_rejects (m : NeuroSymbolic.KripkeModel)
    (hself : (m.current_world, m.current_world) ∈ m.relations)
    (hk : "klystron_fault_reported" ∈ NeuroSymbolic.valuationOf m m.current_world) :
    NeuroSymbolic.is_hypothesis_valid m
      ["[] ~(cooling_fault_reported & klystron_fault_reported)"]
      "cooling_fault_reported" = some false := by
  classical
  set hm := NeuroSymbolic.hypotheticalModel m "cooling_fault_reported" with hhm
  have hcur : hm.current_world = m.current_world := rfl
  -- the body of the rule is false at the current world of the extension
  have hval : NeuroSymbolic.valuationOf hm m.current_world =
      NeuroSymbolic.setInsert "cooling_fault_reported"
        (NeuroSymbolic.valuationOf m m.current_world) :=
    NeuroSymbolic.valuationOf_hypotheticalModel_self m "cooling_fault_reported"
  have hbody : NeuroSymbolic.evaluate hm m.current_world
      (.negation (.conjunction (.proposition "cooling_fault_reported")
        (.proposition "klystron_fault_reported"))) = false := by
    simp only [NeuroSymbolic.evaluate, hval]
    rw [NeuroSymbolic.setInsert_contains_self,
      NeuroSymbolic.setInsert_contains_of_mem _ _ _ hk]
    rfl
  -- the current world is among its own accessible worlds
  have hmem : m.current_world ∈ NeuroSymbolic.accessibleFrom hm m.current_world := by
    have : (m.current_world, m.current_world) ∈ hm.relations := hself
    exact List.mem_map.mpr
      ⟨(m.current_world, m.current_world), List.mem_filter.mpr ⟨this, by simp⟩, rfl⟩
  have hne : (NeuroSymbolic.accessibleFrom hm m.current_world).isEmpty = false := by
    cases hacc : NeuroSymbolic.accessibleFrom hm m.current_world with
    | nil => rw [hacc] at hmem; cases hmem
    | cons a l => rfl
  have hall : (NeuroSymbolic.accessibleFrom hm m.current_world).all
      (fun u => NeuroSymbolic.evaluate hm u
        (.negation (.conjunction (.proposition "cooling_fault_reported")
          (.proposition "klystron_fault_reported")))) = false := by
    cases hb : (NeuroSymbolic.accessibleFrom hm m.current_world).all
        (fun u => NeuroSymbolic.evaluate hm u
          (.negation (.conjunction (.proposition "cooling_fault_reported")
            (.proposition "klystron_fault_reported")))) with
    | false => rfl
    | true =>
      have := List.all_eq_true.mp hb m.current_world hmem
      rw [hbody] at this
      cases this
  -- hence the necessity rule evaluates to false
  have hrule : NeuroSymbolic.evaluate hm m.current_world
      (.necessity (.negation (.conjunction (.proposition "cooling_fault_reported")
        (.proposition "klystron_fault_reported")))) = false := by
    have hstep : NeuroSymbolic.evaluate hm m.current_world
        (.necessity (.negation (.conjunction (.proposition "cooling_fault_reported")
          (.proposition "klystron_fault_reported")))) =
        (if (NeuroSymbolic.accessibleFrom hm m.current_world).isEmpty then true
         else (NeuroSymbolic.accessibleFrom hm m.current_world).all
           (fun u => NeuroSymbolic.evaluate hm u
             (.negation (.conjunction (.proposition "cooling_fault_reported")
               (.proposition "klystron_fault_reported"))))) := rfl
    rw [hstep, hne]
    simpa using hall
  have hparse : NeuroSymbolic.parse
      "[] ~(cooling_fault_reported & klystron_fault_reported)" =
      some (.necessity (.negation (.conjunction (.proposition "cooling_fault_reported")
        (.proposition "klystron_fault_reported")))) := by rfl
  have hcheck : NeuroSymbolic.check hm
      "[] ~(cooling_fault_reported & klystron_fault_reported)" = some false := by
    unfold NeuroSymbolic.check
    rw [hparse]
    show some (NeuroSymbolic.evaluate hm hm.current_world
      (.necessity (.negation (.conjunction (.proposition "cooling_fault_reported")
        (.proposition "klystron_fault_reported"))))) = some false
    rw [hcur, hrule]
  show NeuroSymbolic.checkRules hm
      ["[] ~(cooling_fault_reported & klystron_fault_reported)"] = some false
  simp [NeuroSymbolic.checkRules, hcheck]

/-- Witness for the amended C3 at a concrete self-accessible model. -/
theorem C3_consistency_check_rejects_witness :
    (("w0", "w0") ∈
        (⟨["w0"], [("w0", "w0")], [("w0", ["klystron_fault_reported"])], "w0"⟩ :
          NeuroSymbolic.KripkeModel).relations) ∧
      "klystron_fault_reported" ∈
        NeuroSymbolic.valuationOf
          ⟨["w0"], [("w0", "w0")], [("w0", ["klystron_fault_reported"])], "w0"⟩ "w0" ∧
      NeuroSymbolic.is_hypothesis_valid
        ⟨["w0"], [("w0", "w0")], [("w0", ["klystron_fault_reported"])], "w0"⟩
        ["[] ~(cooling_fault_reported & klystron_fault_reported)"]
        "cooling_fault_reported" = some false :=
  ⟨by decide, by decide,
    C3_consistency_check_rejects
      ⟨["w0"], [("w0", "w0")], [("w0", ["klystron_fault_reported"])], "w0"⟩
      (by decide) (by decide)⟩

namespace NeuroSymbolic

/-- In the diagnostics agent's shipped model every accessibility edge leaves
`w0`, so no world other than `w0` has outgoing edges. -/
theorem diag_accessibleFrom_ne_w0 (u : String) (hu : u ≠ "w0") :
    accessibleFrom diagnosticsKripke u = [] := by
  apply accessibleFrom_eq_nil_of_no_edge
  intro v hv
  simp [diagnosticsKripke] at hv
  rcases hv with h | h | h | h <;> exact hu h.1

/-- Adding a candidate proposition to `w0`'s valuation changes no evaluation
at the worlds `w1`–`w4` (their valuations are untouched, and they have no
outgoing edges in the shipped model). -/
theorem diag_eval_agree (p : String) (f : Formula) :
    ∀ u : String, u ≠ "w0" →
      evaluate (hypotheticalModel diagnosticsKripke p) u f =
        evaluate diagnosticsKripke u f := by
  induction f with
  | proposition q =>
    intro u hu
    show (valuationOf (hypotheticalModel diagnosticsKripke p) u).contains q =
      (valuationOf diagnosticsKripke u).contains q
    rw [valuationOf_hypotheticalModel_ne diagnosticsKripke p u hu]
  | negation f ih =>
    intro u hu
    simp only [evaluate]
    rw [ih u hu]
  | conjunction f g ihf ihg =>
    intro u hu
    simp only [evaluate]
    rw [ihf u hu, ihg u hu]
  | disjunction f g ihf ihg =>
    intro u hu
    simp only [evaluate]
    rw [ihf u hu, ihg u hu]
  | implication f g ihf ihg =>
    intro u hu
    simp only [evaluate]
    rw [ihf u hu, ihg u hu]
  | equivalence f g ihf ihg =>
    intro u hu
    simp only [evaluate]
    rw [ihf u hu, ihg u hu]
  | necessity f ih =>
    intro u hu
    have hnil : accessibleFrom diagnosticsKripke u = [] := diag_accessibleFrom_ne_w0 u hu
    have hnil2 : accessibleFrom (hypotheticalModel diagnosticsKripke p) u = [] := hnil
    show (if (accessibleFrom (hypotheticalModel diagnosticsKripke p) u).isEmpty then true
        else (accessibleFrom (hypotheticalModel diagnosticsKripke p) u).all
          (fun v => evaluate (hypotheticalModel diagnosticsKripke p) v f)) =
      (if (accessibleFrom diagnosticsKripke u).isEmpty then true
        else (accessibleFrom diagnosticsKripke u).all
          (fun v => evaluate diagnosticsKripke v f))
    rw [hnil, hnil2]
    rfl
  | possibility f ih =>
    intro u hu
    have hnil : accessibleFrom diagnosticsKripke u = [] := diag_accessibleFrom_ne_w0 u hu
    have hnil2 : accessibleFrom (hypotheticalModel diagnosticsKripke p) u = [] := hnil
    show (accessibleFrom (hypotheticalModel diagnosticsKripke p) u).any
        (fun v => evaluate (hypotheticalModel diagnosticsKripke p) v f) =
      (accessibleFrom diagnosticsKripke u).any (fun v => evaluate diagnosticsKripke v f)
    rw [hnil, hnil2]
    rfl

/-- Evaluating a necessity rule of the shipped diagnostics model at `w0`
reduces to checking its body at `w1`–`w4`. -/
theorem diag_necessity_eval (p : String) (b : Formula) :
    evaluate (hypotheticalModel diagnosticsKripke p) "w0" (.necessity b) =
      (["w1", "w2", "w3", "w4"].all
        (fun u => evaluate (hypotheticalModel diagnosticsKripke p) u b)) := rfl

/-- A necessity rule whose body holds at `w1`–`w4` of the shipped model is
accepted by `ModalParser.check` on any hypothetical extension of `w0`. -/
theorem diag_rule_eval (p : String) (b : Formula)
    (h1 : evaluate diagnosticsKripke "w1" b = true)
    (h2 : evaluate diagnosticsKripke "w2" b = true)
    (h3 : evaluate diagnosticsKripke "w3" b = true)
    (h4 : evaluate diagnosticsKripke "w4" b = true) :
    evaluate (hypotheticalModel diagnosticsKripke p) "w0" (.necessity b) = true := by
  rw [diag_necessity_eval p b]
  have e1 := diag_eval_agree p b "w1" (by decide)
  have e2 := diag_eval_agree p b "w2" (by decide)
  have e3 := diag_eval_agree p b "w3" (by decide)
  have e4 := diag_eval_agree p b "w4" (by decide)
  simp only [List.all_cons, List.all_nil, e1, e2, e3, e4, h1, h2, h3, h4]
  rfl

end NeuroSymbolic

/-- C9: with the `AcceleratorDiagnostics` agent's initial Kripke model and
the fixed `EXPERT_RULES`, the symbolic validation accepts *every* candidate
proposition: each rule is a necessity evaluated at `w0`, which only inspects
the valuations of `w1`–`w4`, and adding the candidate to `w0`'s valuation
never changes those. -/
theorem C9_shipped_validation_never_rejects (p : String) :
    NeuroSymbolic.is_hypothesis_valid NeuroSymbolic.diagnosticsKripke
      NeuroSymbolic.EXPERT_RULES p = some true := by
  have hm := NeuroSymbolic.hypotheticalModel NeuroSymbolic.diagnosticsKripke p
  have hc1 : NeuroSymbolic.check
      (NeuroSymbolic.hypotheticalModel NeuroSymbolic.diagnosticsKripke p)
      "[] (rf_temp_high -> <>cooling_fault_reported)" = some true := by
    unfold NeuroSymbolic.check
    rw [show NeuroSymbolic.parse "[] (rf_temp_high -> <>cooling_fault_reported)" =
      some (.necessity (.implication (.proposition "rf_temp_high")
        (.possibility (.proposition "cooling_fault_reported")))) from rfl]
    show some (NeuroSymbolic.evaluate _ "w0" _) = some true
    rw [NeuroSymbolic.diag_rule_eval p _ (by decide) (by decide) (by decide) (by decide)]
  have hc2 : NeuroSymbolic.check
      (NeuroSymbolic.hypotheticalModel NeuroSymbolic.diagnosticsKripke p)
      "[] (klystron_fault_reported -> rf_power_fault_reported)" = some true := by
    unfold NeuroSymbolic.check
    rw [show NeuroSymbolic.parse "[] (klystron_fault_reported -> rf_power_fault_reported)" =
      some (.necessity (.implication (.proposition "klystron_fault_reported")
        (.proposition "rf_power_fault_reported"))) from rfl]
    show some (NeuroSymbolic.evaluate _ "w0" _) = some true
    rw [NeuroSymbolic.diag_rule_eval p _ (by decide) (by decide) (by decide) (by decide)]
  have hc3 : NeuroSymbolic.check
      (NeuroSymbolic.hypotheticalModel NeuroSymbolic.diagnosticsKripke p)
      "[] ~(cooling_fault_reported & klystron_fault_reported)" = some true := by
    unfold NeuroSymbolic.check
    rw [show NeuroSymbolic.parse "[] ~(cooling_fault_reported & klystron_fault_reported)" =
      some (.necessity (.negation (.conjunction (.proposition "cooling_fault_reported")
        (.proposition "klystron_fault_reported")))) from rfl]
    show some (NeuroSymbolic.evaluate _ "w0" _) = some true
    rw [NeuroSymbolic.diag_rule_eval p _ (by decide) (by decide) (by decide) (by decide)]
  have hc4 : NeuroSymbolic.check
      (NeuroSymbolic.hypotheticalModel NeuroSymbolic.diagnosticsKripke p)
      "[] (vacuum_fault_reported -> ~<>rf_fault_is_root_cause)" = some true := by
    unfold NeuroSymbolic.check
    rw [show NeuroSymbolic.parse
      "[] (vacuum_fault_reported -> ~<>rf_fault_is_root_cause)" =
      some (.necessity (.implication (.proposition "vacuum_fault_reported")
        (.negation (.possibility (.proposition "rf_fault_is_root_cause"))))) from rfl]
    show some (NeuroSymbolic.evaluate _ "w0" _) = some true
    rw [NeuroSymbolic.diag_rule_eval p _ (by decide) (by decide) (by decide) (by decide)]
  show NeuroSymbolic.checkRules
    (NeuroSymbolic.hypotheticalModel NeuroSymbolic.diagnosticsKripke p)
    NeuroSymbolic.EXPERT_RULES = some true
  rw [show NeuroSymbolic.EXPERT_RULES =
    [ "[] (rf_temp_high -> <>cooling_fault_reported)",
      "[] (klystron_fault_reported -> rf_power_fault_reported)",
      "[] ~(cooling_fault_reported & klystron_fault_reported)",
      "[] (vacuum_fault_reported -> ~<>rf_fault_is_root_cause)" ] from rfl]
  simp [NeuroSymbolic.checkRules, hc1, hc2, hc3, hc4]

/-- C2: for every Kripke model `m`, every world `w` with no outgoing
accessibility edges, and every formula `f`, `evaluate m w (Necessity f)`
is `true` (vacuous truth) and `evaluate m w (Possibility f)` is `false`. -/
theorem C2_vacuous_necessity_possibility (m : NeuroSymbolic.KripkeModel)
    (w : String) (f : NeuroSymbolic.Formula)
    (h : ∀ u, (w, u) ∉ m.relations) :
    NeuroSymbolic.evaluate m w (.necessity f) = true ∧
      NeuroSymbolic.evaluate m w (.possibility f) = false := by
  have hnil := NeuroSymbolic.accessibleFrom_eq_nil_of_no_edge m w h
  constructor
  · simp [NeuroSymbolic.evaluate, hnil]
  · simp [NeuroSymbolic.evaluate, hnil]

/-- Witness for C2 at a concrete model: world `w1` of the RF agent's initial
model has no outgoing edges. -/
theorem C2_vacuous_necessity_possibility_witness :
    (∀ u, ("w1", u) ∉ ([("w0", "w1"), ("w0", "w2")] : List (String × String))) ∧
      NeuroSymbolic.evaluate
        ⟨["w0", "w1", "w2"], [("w0", "w1"), ("w0", "w2")],
          [("w0", ["rf_ok"]), ("w1", ["rf_temp_high"]), ("w2", ["rf_power_low"])],
          "w0"⟩
        "w1" (.necessity (.proposition "rf_temp_high")) = true ∧
      NeuroSymbolic.evaluate
        ⟨["w0", "w1", "w2"], [("w0", "w1"), ("w0", "w2")],
          [("w0", ["rf_ok"]), ("w1", ["rf_temp_high"]), ("w2", ["rf_power_low"])],
          "w0"⟩
        "w1" (.possibility (.proposition "rf_temp_high")) = false := by
  refine ⟨by intro u; simp, ?_, ?_⟩
  · exact (C2_vacuous_necessity_possibility _ "w1" _ (by intro u; simp)).1
  · exact (C2_vacuous_necessity_possibility _ "w1" _ (by intro u; simp)).2

/-- C5: `are_components_connected(upstream, downstream, type)` answers
`connected: true` exactly when the upstream id resolves to an owning
component and the downstream id names a component of the layout and either
the downstream's `connected_to[type]` equals the resolved upstream component
or the downstream id appears in the resolved upstream component's `services`
list; unresolved upstream or absent downstream give `connected: false`.  In
particular `are_connected("COOL:water_pressure", "RF:cavity", "cooling")`
answers `connected: true` (the sensor resolves to `COOL:primary_loop`). -/
theorem C5_connectivity_characterization :
    (∀ (layout : List (String × NeuroSymbolic.Component)) (up down ty : String),
      (NeuroSymbolic.are_components_connected layout up down ty).connected = true ↔
        ∃ uc, NeuroSymbolic.find_component_by_sensor layout up = some uc ∧
          ∃ ci, List.lookup down layout = some ci ∧
            (List.lookup ty ci.connected_to = some uc ∨
              down ∈ NeuroSymbolic.services_of layout uc)) ∧
    NeuroSymbolic.find_component_by_sensor NeuroSymbolic.LATTICE_LAYOUT
      "COOL:water_pressure" = some "COOL:primary_loop" ∧
    (NeuroSymbolic.are_components_connected NeuroSymbolic.LATTICE_LAYOUT
      "COOL:water_pressure" "RF:cavity" "cooling").connected = true := by
  refine ⟨?_, by decide, by decide⟩
  intro layout up down ty
  unfold NeuroSymbolic.are_components_connected
  cases hf : NeuroSymbolic.find_component_by_sensor layout up with
  | none => simp
  | some uc =>
    cases hl : List.lookup down layout with
    | none => simp
    | some ci =>
      by_cases hcon : List.lookup ty ci.connected_to = some uc
      · simp [hcon]
      · have hconb : (List.lookup ty ci.connected_to == some uc) = false := by
          simp [hcon]
        by_cases hsv : down ∈ NeuroSymbolic.services_of layout uc
        · simp [hconb, hsv, hcon]
        · simp [hconb, hsv, hcon]

/-- C10: an upstream identifier that appears in no component's `sensors`
list of the shipped layout and contains none of the three hard-coded
fallback substrings never resolves, so every connectivity query with it as
upstream is negative; in particular `"RF:cavity"` — the PV that
`agent_to_pv_map` assigns to `RF_Agent` — never resolves, so every
verification with `RF_Agent` as root cause fails. -/
theorem C10_unresolvable_upstream :
    (∀ up : String,
      (∀ e ∈ NeuroSymbolic.LATTICE_LAYOUT, up ∉ e.2.sensors) →
      NeuroSymbolic.strContains up "COOL:water_pressure" = false →
      NeuroSymbolic.strContains up "PS:quad_1A" = false →
      NeuroSymbolic.strContains up "VAC:sector1_pump" = false →
      NeuroSymbolic.find_component_by_sensor NeuroSymbolic.LATTICE_LAYOUT up = none ∧
        ∀ down ty, (NeuroSymbolic.are_components_connected
          NeuroSymbolic.LATTICE_LAYOUT up down ty).connected = false) ∧
    NeuroSymbolic.agent_to_pv_map "RF_Agent" = some "RF:cavity" ∧
    NeuroSymbolic.find_component_by_sensor NeuroSymbolic.LATTICE_LAYOUT
      "RF:cavity" = none ∧
    ∀ down ty, (NeuroSymbolic.are_components_connected
      NeuroSymbolic.LATTICE_LAYOUT "RF:cavity" down ty).connected = false := by
  have gen : ∀ up : String,
      (∀ e ∈ NeuroSymbolic.LATTICE_LAYOUT, up ∉ e.2.sensors) →
      NeuroSymbolic.strContains up "COOL:water_pressure" = false →
      NeuroSymbolic.strContains up "PS:quad_1A" = false →
      NeuroSymbolic.strContains up "VAC:sector1_pump" = false →
      NeuroSymbolic.find_component_by_sensor NeuroSymbolic.LATTICE_LAYOUT up = none ∧
        ∀ down ty, (NeuroSymbolic.are_components_connected
          NeuroSymbolic.LATTICE_LAYOUT up down ty).connected = false := by
    intro up hsens h1 h2 h3
    have hfind : NeuroSymbolic.find_component_by_sensor
        NeuroSymbolic.LATTICE_LAYOUT up = none := by
      unfold NeuroSymbolic.find_component_by_sensor
      have hnone : NeuroSymbolic.LATTICE_LAYOUT.find?
          (fun e => e.2.sensors.contains up) = none := by
        rw [List.find?_eq_none]
        intro e he
        have := hsens e he
        simp [this]
      rw [hnone, h1, h2, h3]
      rfl
    refine ⟨hfind, ?_⟩
    intro down ty
    unfold NeuroSymbolic.are_components_connected
    rw [hfind]
  refine ⟨gen, by decide, ?_, ?_⟩
  · exact (gen "RF:cavity" (by decide) (by decide) (by decide) (by decide)).1
  · exact (gen "RF:cavity" (by decide) (by decide) (by decide) (by decide)).2

/-- Witness for C10 at the concrete upstream id `"RF:cavity"`. -/
theorem C10_unresolvable_upstream_witness :
    NeuroSymbolic.find_component_by_sensor NeuroSymbolic.LATTICE_LAYOUT
        "RF:cavity" = none ∧
      (NeuroSymbolic.are_components_connected NeuroSymbolic.LATTICE_LAYOUT
        "RF:cavity" "COOL:primary_loop" "power").connected = false :=
  ⟨(C10_unresolvable_upstream.1 "RF:cavity"
      (by decide) (by decide) (by decide) (by decide)).1,
    (C10_unresolvable_upstream.1 "RF:cavity"
      (by decide) (by decide) (by decide) (by decide)).2 "COOL:primary_loop" "power"⟩

namespace NeuroSymbolic

/-- The plain data form produced by `KripkeModel.to_dict` in
`modal_logic.py`: worlds as a list, relations as two-element lists,
valuations as world ↦ list of propositions, plus the current world. -/
structure SerializedModel where
  worlds : List String
  relations : List (List String)
  valuations : List (String × List String)
  current_world : String
deriving DecidableEq, Repr

/-- The `KripkeModel.to_dict` from `modal_logic.py`. -/
def KripkeModel.to_dict (m : KripkeModel) : SerializedModel :=
  { worlds := m.worlds,
    relations := m.relations.map (fun r => [r.1, r.2]),
    valuations := m.valuations,
    current_world := m.current_world }

/-- Reconstruction of a model from serialized data as `update_kripke_model`
does it (`agents.py` lines 305–311): worlds from the list, relations as
tuples of the serialized pairs, valuations as sets of the listed
propositions, the same current world.  `to_dict` only emits two-element
relation entries, which the tupling maps back to pairs. -/
def model_from_dict (d : SerializedModel) : KripkeModel :=
  { worlds := d.worlds,
    relations := d.relations.map (fun l => (l.getD 0 "", l.getD 1 "")),
    valuations := d.valuations,
    current_world := d.current_world }

/-- Re-tupling the serialized pairs is the identity. -/
theorem map_pair_roundtrip :
    ∀ l : List (String × String),
      (l.map (fun r => [r.1, r.2])).map (fun x => (x.getD 0 "", x.getD 1 "")) = l := by
  intro l
  induction l with
  | nil => rfl
  | cons a t ih =>
    cases a with
    | mk x y =>
      rw [List.map_cons, List.map_cons, ih]
      rfl

end NeuroSymbolic

/-- C6: reconstructing a model from the output of `to_dict` yields a model
whose worlds, relation set, valuation mapping and current world agree with
the original's (order-independent, membership-wise equality). -/
theorem C6_serialization_roundtrip (m : NeuroSymbolic.KripkeModel) :
    (∀ w, w ∈ (NeuroSymbolic.model_from_dict m.to_dict).worlds ↔ w ∈ m.worlds) ∧
    (∀ r, r ∈ (NeuroSymbolic.model_from_dict m.to_dict).relations ↔ r ∈ m.relations) ∧
    (∀ w p, p ∈ NeuroSymbolic.valuationOf (NeuroSymbolic.model_from_dict m.to_dict) w ↔
      p ∈ NeuroSymbolic.valuationOf m w) ∧
    (NeuroSymbolic.model_from_dict m.to_dict).current_world = m.current_world := by
  refine ⟨fun w => Iff.rfl, ?_, fun w p => Iff.rfl, rfl⟩
  intro r
  show r ∈ (m.relations.map (fun r => [r.1, r.2])).map
      (fun x => (x.getD 0 "", x.getD 1 "")) ↔ r ∈ m.relations
  rw [NeuroSymbolic.map_pair_roundtrip m.relations]

namespace NeuroSymbolic

/-- A JSON value, the shape of `json.loads` output on the oracle's reply. -/
inductive JVal where
  | jnull : JVal
  | jbool : Bool → JVal
  | jnum : Int → JVal
  | jstr : String → JVal
  | jarr : List JVal → JVal
  | jobj : List (String × JVal) → JVal

/-- Python's `d.get(key, default)`: `none` models the `AttributeError`
raised (and caught by the blanket handler) when the reply is not a dict. -/
def jGet (v : JVal) (key : String) (dflt : JVal) : Option JVal :=
  match v with
  | .jobj fields => some ((fields.lookup key).getD dflt)
  | _ => none

/-- A JSON string, else a type error. -/
def asStr : JVal → Option String
  | .jstr s => some s
  | _ => none

/-- A JSON array of strings, else a type error.  (Worlds and propositions
are modelled as strings; oracle output of any other element shape is
modelled as a parse failure.) -/
def asStrList : JVal → Option (List String)
  | .jarr es => es.mapM asStr
  | _ => none

/-- The `tuple(r)` for a serialized relation entry: a two-element string list
becomes a pair; anything else is modelled as a parse failure. -/
def asPair : JVal → Option (String × String)
  | .jarr [a, b] =>
    match asStr a, asStr b with
    | some x, some y => some (x, y)
    | _, _ => none
  | _ => none

/-- The `{tuple(r) for r in updated_model_dict.get("relations", [])}`. -/
def asRelations : JVal → Option (List (String × String))
  | .jarr es => es.mapM asPair
  | _ => none

/-- The `{w: set(p) for w, p in updated_model_dict.get("valuations", {}).items()}`. -/
def asValuations : JVal → Option (List (String × List String))
  | .jobj fields =>
    fields.mapM (fun e =>
      match asStrList e.2 with
      | some ps => some (e.1, ps)
      | none => none)
  | _ => none

/-- The oracle's reply to a belief-update request: a connection error, raw
content that `json.loads` rejects, or a parsed JSON value. -/
inductive OracleReply where
  | connection_error : OracleReply
  | malformed : OracleReply
  | ok : JVal → OracleReply

/-- The parsing stage of `update_kripke_model` (`agents.py` lines 303–311):
build the replacement `KripkeModel` from the reply, `none` on any of the
`JSONDecodeError`/`TypeError`/`KeyError`/blanket exception paths.  The
valuations are converted first, as in the source. -/
def parse_updated_model (v : JVal) : Option KripkeModel := do
  let updated_valuations ← asValuations (← jGet v "valuations" (.jobj []))
  let ws ← asStrList (← jGet v "worlds" (.jarr []))
  let rels ← asRelations (← jGet v "relations" (.jarr []))
  let cur ← asStr (← jGet v "current_world" (.jstr ""))
  pure ⟨ws, rels, updated_valuations, cur⟩

/-- The `NeuroSymbolicAgent.update_kripke_model` from `agents.py`, abstracted
over the oracle's reply: on success the agent's model is replaced wholesale
by the parsed model; every error path leaves it untouched (the single
assignment to `self.kripke_model` happens only after parsing succeeds). -/
def update_kripke_model (km : KripkeModel) (reply : OracleReply) : KripkeModel :=
  match reply with
  | .connection_error => km
  | .malformed => km
  | .ok v =>
    match parse_updated_model v with
    | some updated => updated
    | none => km

end NeuroSymbolic

/-- C7: the belief update is atomic — `update_kripke_model` either replaces
the agent's Kripke model wholesale with the model built from the oracle's
complete response, or (on a connection error, malformed JSON, or any parse
failure) leaves the model exactly as it was; no error path leaves it
partially mutated. -/
theorem C7_belief_update_atomic (km : NeuroSymbolic.KripkeModel)
    (reply : NeuroSymbolic.OracleReply) :
    NeuroSymbolic.update_kripke_model km reply = km ∨
      ∃ v updated, reply = NeuroSymbolic.OracleReply.ok v ∧
        NeuroSymbolic.parse_updated_model v = some updated ∧
        NeuroSymbolic.update_kripke_model km reply = updated := by
  cases reply with
  | connection_error => exact Or.inl rfl
  | malformed => exact Or.inl rfl
  | ok v =>
    cases hp : NeuroSymbolic.parse_updated_model v with
    | none =>
      left
      simp [NeuroSymbolic.update_kripke_model, hp]
    | some updated =>
      right
      exact ⟨v, updated, rfl, hp, by simp [NeuroSymbolic.update_kripke_model, hp]⟩

namespace NeuroSymbolic

/-- The `ModalParser.check` fails exactly when the formula fails to parse. -/
theorem check_eq_none_iff (m : KripkeModel) (r : String) :
    check m r = none ↔ parse r = none := by
  unfold check
  cases parse r <;> simp

/-- A fully successful rule pass means every rule parses. -/
theorem parses_of_checkRules_true (m : KripkeModel) :
    ∀ rules : List String, checkRules m rules = some true →
      ∀ r ∈ rules, parse r ≠ none := by
  intro rules
  induction rules with
  | nil =>
    intro _ r hr
    cases hr
  | cons a t ih =>
    intro h r hr
    simp only [checkRules] at h
    cases hc : check m a with
    | none => rw [hc] at h; cases h
    | some b =>
      rw [hc] at h
      cases b with
      | false => simp at h
      | true =>
        simp only [if_true] at h
        cases hr with
        | head =>
          intro hpn
          rw [(check_eq_none_iff m a).mpr hpn] at hc
          cases hc
        | tail _ hmem => exact ih h r hmem

/-- Rule checking cannot raise when every rule parses. -/
theorem checkRules_ne_none (m : KripkeModel) :
    ∀ rules : List String, (∀ r ∈ rules, parse r ≠ none) →
      checkRules m rules ≠ none := by
  intro rules
  induction rules with
  | nil =>
    intro _ h
    cases h
  | cons a t ih =>
    intro hp
    simp only [checkRules]
    cases hc : check m a with
    | none =>
      exact absurd ((check_eq_none_iff m a).mp hc) (hp a (List.mem_cons_self a t))
    | some b =>
      cases b with
      | false => simp
      | true =>
        simp only [if_true]
        exact ih (fun r hr => hp r (List.mem_cons_of_mem a hr))

/-- Since parsing is independent of the candidate proposition, an accepted
hypothesis guarantees that validating any other candidate cannot raise. -/
theorem is_hypothesis_valid_ne_none (m : KripkeModel) (rules : List String)
    (p q : String) (h : is_hypothesis_valid m rules p = some true) :
    is_hypothesis_valid m rules q ≠ none := by
  unfold is_hypothesis_valid at h ⊢
  by_cases he : rules.isEmpty
  · simp [he]
  · simp only [he, if_false] at h ⊢
    exact checkRules_ne_none _ rules
      (parses_of_checkRules_true (hypotheticalModel m p) rules h)

end NeuroSymbolic

/-- C1: when the forward connectivity verification of the oracle's
(root, symptom) pair is negative (and at least two reports are pending, the
theory's agents are among the senders, the forward validation passed and
both agents map to PVs), `diagnose_system_state` swaps root and symptom and
re-runs validation then verification exactly once: it returns the swapped
pair when the reversed validation and verification succeed, and the empty
list when either fails. -/
theorem C1_reverse_and_retry (reports : List String)
    (t : NeuroSymbolic.CausalTheory) (km : NeuroSymbolic.KripkeModel)
    (rules : List String) (lattice_name : String)
    (layout : List (String × NeuroSymbolic.Component)) (up down : String)
    (h2 : 2 ≤ reports.length)
    (hroot : t.root_cause_agent ∈ reports)
    (hsym : t.symptom_agent ∈ reports)
    (hvalid : NeuroSymbolic.is_hypothesis_valid km rules
      (NeuroSymbolic.proposition_for t.root_cause_agent) = some true)
    (hup : NeuroSymbolic.agent_to_pv_map t.root_cause_agent = some up)
    (hdown : NeuroSymbolic.agent_to_pv_map t.symptom_agent = some down)
    (hneg : (NeuroSymbolic.process_query_check_connection lattice_name layout up down
      (NeuroSymbolic.connection_type_for t.root_cause_agent)).1 ≠ "affirmative") :
    NeuroSymbolic.diagnose_system_state reports (some t) km rules lattice_name layout =
      some (if NeuroSymbolic.is_hypothesis_valid km rules
              (NeuroSymbolic.proposition_for t.symptom_agent) = some true
            ∧ (NeuroSymbolic.process_query_check_connection lattice_name layout down up
                (NeuroSymbolic.connection_type_for t.symptom_agent)).1 = "affirmative"
          then [t.symptom_agent, t.root_cause_agent] else []) := by
  have hn2 : ¬ (reports.length < 2) := by omega
  have hcb : (!(reports.contains t.root_cause_agent &&
      reports.contains t.symptom_agent)) = false := by
    simp [hroot, hsym]
  have hnegb : ((NeuroSymbolic.process_query_check_connection lattice_name layout up down
      (NeuroSymbolic.connection_type_for t.root_cause_agent)).1 == "affirmative") = false := by
    simp [hneg]
  unfold NeuroSymbolic.diagnose_system_state
  rw [if_neg hn2]
  simp only [hcb, Bool.false_eq_true, if_false, hvalid, hup, hdown, hnegb]
  cases hrev : NeuroSymbolic.is_hypothesis_valid km rules
      (NeuroSymbolic.proposition_for t.symptom_agent) with
  | none =>
    exact absurd hrev
      (NeuroSymbolic.is_hypothesis_valid_ne_none km rules _ _ hvalid)
  | some b =>
    cases b with
    | false => simp
    | true =>
      simp only [hdown, hup]
      by_cases haff : (NeuroSymbolic.process_query_check_connection lattice_name layout
          down up (NeuroSymbolic.connection_type_for t.symptom_agent)).1 = "affirmative"
      · simp [haff]
      · simp [haff]

/-- Witness for C1: scenario D — the oracle proposes RF as root cause and
Cooling as symptom; forward verification fails (`"RF:cavity"` never
resolves as upstream), the reversed direction verifies, and the swapped
pair is returned. -/
theorem C1_reverse_and_retry_witness :
    NeuroSymbolic.diagnose_system_state ["RF_Agent", "Cooling_Agent"]
      (some ⟨"RF_Agent", "Cooling_Agent", "RF fault is the root cause"⟩)
      NeuroSymbolic.diagnosticsKripke NeuroSymbolic.EXPERT_RULES
      "LatticeLayoutAgent" NeuroSymbolic.LATTICE_LAYOUT =
      some ["Cooling_Agent", "RF_Agent"] := by
  rw [C1_reverse_and_retry ["RF_Agent", "Cooling_Agent"]
    ⟨"RF_Agent", "Cooling_Agent", "RF fault is the root cause"⟩
    NeuroSymbolic.diagnosticsKripke NeuroSymbolic.EXPERT_RULES
    "LatticeLayoutAgent" NeuroSymbolic.LATTICE_LAYOUT
    "RF:cavity" "COOL:valve_position"
    (by decide) (by decide) (by decide) (by decide) (by decide) (by decide)
    (by decide)]
  decide

namespace NeuroSymbolic

/-- Token stream of a same-operator chain after its first identifier:
`op n₁ op n₂ …`. -/
def chainRestToks (op : Tok) : List String → List Tok
  | [] => []
  | n :: t => op :: Tok.name n :: chainRestToks op t

/-- Token stream of a same-operator chain `n₀ op n₁ op n₂ …`. -/
def chainToks (op : Tok) (n0 : String) (rest : List String) : List Tok :=
  Tok.name n0 :: chainRestToks op rest

/-- The left-associated fold that `ModalTransformer._reduce_args` produces
for a chain of one binary operator. -/
def foldChain (mk : Formula → Formula → Formula) (n0 : String)
    (rest : List String) : Formula :=
  rest.foldl (fun acc n => mk acc (.proposition n)) (.proposition n0)

theorem chainRestToks_length (op : Tok) :
    ∀ ns : List String, (chainRestToks op ns).length = 2 * ns.length := by
  intro ns
  induction ns with
  | nil => rfl
  | cons n t ih => simp [chainRestToks, ih]; omega

theorem chainRestToks_head_ne (op op' : Tok) (ns : List String) (h : op ≠ op') :
    (chainRestToks op ns).head? ≠ some op' := by
  cases ns with
  | nil => simp [chainRestToks]
  | cons n t =>
    simp [chainRestToks]
    exact h

/-- A lone identifier parses at the negation level with three fuel steps. -/
theorem parseNegation_name (f : Nat) (n : String) (ts : List Tok) :
    parseNegation (f + 3) (Tok.name n :: ts) = some (.proposition n, ts) := rfl

theorem parseConjunctionRest_stop (f : Nat) (acc : Formula) (ts : List Tok)
    (h : ts.head? ≠ some Tok.tand) :
    parseConjunctionRest (f + 1) acc ts = some (acc, ts) := by
  cases ts with
  | nil => rfl
  | cons a t => cases a <;> first | rfl | exact absurd rfl h

theorem parseDisjunctionRest_stop (f : Nat) (acc : Formula) (ts : List Tok)
    (h : ts.head? ≠ some Tok.tor) :
    parseDisjunctionRest (f + 1) acc ts = some (acc, ts) := by
  cases ts with
  | nil => rfl
  | cons a t => cases a <;> first | rfl | exact absurd rfl h

theorem parseImplicationRest_stop (f : Nat) (acc : Formula) (ts : List Tok)
    (h : ts.head? ≠ some Tok.timpl) :
    parseImplicationRest (f + 1) acc ts = some (acc, ts) := by
  cases ts with
  | nil => rfl
  | cons a t => cases a <;> first | rfl | exact absurd rfl h

theorem parseEquivalenceRest_stop (f : Nat) (acc : Formula) (ts : List Tok)
    (h : ts.head? ≠ some Tok.tequiv) :
    parseEquivalenceRest (f + 1) acc ts = some (acc, ts) := by
  cases ts with
  | nil => rfl
  | cons a t => cases a <;> first | rfl | exact absurd rfl h

/-- A lone identifier parses at the conjunction level when no `&` follows. -/
theorem parseConjunction_name (f : Nat) (n : String) (ts : List Tok)
    (h : ts.head? ≠ some Tok.tand) :
    parseConjunction (f + 5) (Tok.name n :: ts) = some (.proposition n, ts) := by
  show parseConjunction ((f + 4) + 1) (Tok.name n :: ts) = some (.proposition n, ts)
  simp only [parseConjunction]
  rw [parseNegation_name (f + 1) n ts]
  exact parseConjunctionRest_stop (f + 3) _ ts h

/-- A lone identifier parses at the disjunction level when no `&`/`|`
follows. -/
theorem parseDisjunction_name (f : Nat) (n : String) (ts : List Tok)
    (hand : ts.head? ≠ some Tok.tand) (hor : ts.head? ≠ some Tok.tor) :
    parseDisjunction (f + 7) (Tok.name n :: ts) = some (.proposition n, ts) := by
  show parseDisjunction ((f + 6) + 1) (Tok.name n :: ts) = some (.proposition n, ts)
  simp only [parseDisjunction]
  rw [parseConjunction_name (f + 1) n ts hand]
  exact parseDisjunctionRest_stop (f + 5) _ ts hor

/-- A lone identifier parses at the implication level when no `&`/`|`/`->`
follows. -/
theorem parseImplication_name (f : Nat) (n : String) (ts : List Tok)
    (hand : ts.head? ≠ some Tok.tand) (hor : ts.head? ≠ some Tok.tor)
    (himp : ts.head? ≠ some Tok.timpl) :
    parseImplication (f + 9) (Tok.name n :: ts) = some (.proposition n, ts) := by
  show parseImplication ((f + 8) + 1) (Tok.name n :: ts) = some (.proposition n, ts)
  simp only [parseImplication]
  rw [parseDisjunction_name (f + 1) n ts hand hor]
  exact parseImplicationRest_stop (f + 7) _ ts himp

/-- The `("&" negation)*` loop folds a chain of identifiers to the left. -/
theorem parseConjunctionRest_chain :
    ∀ (ns : List String) (f : Nat) (acc : Formula),
      parseConjunctionRest (f + ns.length + 4) acc (chainRestToks Tok.tand ns) =
        some (ns.foldl (fun a n => .conjunction a (.proposition n)) acc, []) := by
  intro ns
  induction ns with
  | nil =>
    intro f acc
    exact parseConjunctionRest_stop (f + 3) acc [] (by simp)
  | cons n t ih =>
    intro f acc
    show parseConjunctionRest (f + (t.length + 1) + 4) acc
      (Tok.tand :: Tok.name n :: chainRestToks Tok.tand t) = _
    have harith : f + (t.length + 1) + 4 = (f + t.length + 4) + 1 := by omega
    rw [harith]
    simp only [parseConjunctionRest]
    rw [parseNegation_name (f + t.length + 1) n (chainRestToks Tok.tand t)]
    exact ih f (.conjunction acc (.proposition n))

/-- The `("|" conjunction)*` loop folds a chain of identifiers to the left. -/
theorem parseDisjunctionRest_chain :
    ∀ (ns : List String) (f : Nat) (acc : Formula),
      parseDisjunctionRest (f + ns.length + 6) acc (chainRestToks Tok.tor ns) =
        some (ns.foldl (fun a n => .disjunction a (.proposition n)) acc, []) := by
  intro ns
  induction ns with
  | nil =>
    intro f acc
    exact parseDisjunctionRest_stop (f + 5) acc [] (by simp)
  | cons n t ih =>
    intro f acc
    show parseDisjunctionRest (f + (t.length + 1) + 6) acc
      (Tok.tor :: Tok.name n :: chainRestToks Tok.tor t) = _
    have harith : f + (t.length + 1) + 6 = (f + t.length + 6) + 1 := by omega
    rw [harith]
    simp only [parseDisjunctionRest]
    rw [parseConjunction_name (f + t.length + 1) n (chainRestToks Tok.tor t)
      (chainRestToks_head_ne Tok.tor Tok.tand t (by decide))]
    exact ih f (.disjunction acc (.proposition n))

/-- The `("->" disjunction)*` loop folds a chain of identifiers to the
left. -/
theorem parseImplicationRest_chain :
    ∀ (ns : List String) (f : Nat) (acc : Formula),
      parseImplicationRest (f + ns.length + 8) acc (chainRestToks Tok.timpl ns) =
        some (ns.foldl (fun a n => .implication a (.proposition n)) acc, []) := by
  intro ns
  induction ns with
  | nil =>
    intro f acc
    exact parseImplicationRest_stop (f + 7) acc [] (by simp)
  | cons n t ih =>
    intro f acc
    show parseImplicationRest (f + (t.length + 1) + 8) acc
      (Tok.timpl :: Tok.name n :: chainRestToks Tok.timpl t) = _
    have harith : f + (t.length + 1) + 8 = (f + t.length + 8) + 1 := by omega
    rw [harith]
    simp only [parseImplicationRest]
    rw [parseDisjunction_name (f + t.length + 1) n (chainRestToks Tok.timpl t)
      (chainRestToks_head_ne Tok.timpl Tok.tand t (by decide))
      (chainRestToks_head_ne Tok.timpl Tok.tor t (by decide))]
    exact ih f (.implication acc (.proposition n))

/-- The `("<->" implication)*` loop folds a chain of identifiers to the
left. -/
theorem parseEquivalenceRest_chain :
    ∀ (ns : List String) (f : Nat) (acc : Formula),
      parseEquivalenceRest (f + ns.length + 10) acc (chainRestToks Tok.tequiv ns) =
        some (ns.foldl (fun a n => .equivalence a (.proposition n)) acc, []) := by
  intro ns
  induction ns with
  | nil =>
    intro f acc
    exact parseEquivalenceRest_stop (f + 9) acc [] (by simp)
  | cons n t ih =>
    intro f acc
    show parseEquivalenceRest (f + (t.length + 1) + 10) acc
      (Tok.tequiv :: Tok.name n :: chainRestToks Tok.tequiv t) = _
    have harith : f + (t.length + 1) + 10 = (f + t.length + 10) + 1 := by omega
    rw [harith]
    simp only [parseEquivalenceRest]
    rw [parseImplication_name (f + t.length + 1) n (chainRestToks Tok.tequiv t)
      (chainRestToks_head_ne Tok.tequiv Tok.tand t (by decide))
      (chainRestToks_head_ne Tok.tequiv Tok.tor t (by decide))
      (chainRestToks_head_ne Tok.tequiv Tok.timpl t (by decide))]
    exact ih f (.equivalence acc (.proposition n))

/-- An `&`-chain parsed from the `expression` entry point. -/
theorem parseExpression_and_chain (g : Nat) (n0 : String) (rest : List String) :
    parseExpression (g + rest.length + 9) (chainToks Tok.tand n0 rest) =
      some (foldChain .conjunction n0 rest, []) := by
  have hconj : parseConjunction (g + rest.length + 5) (chainToks Tok.tand n0 rest) =
      some (foldChain .conjunction n0 rest, []) := by
    show parseConjunction ((g + rest.length + 4) + 1)
      (Tok.name n0 :: chainRestToks Tok.tand rest) = _
    simp only [parseConjunction]
    rw [parseNegation_name (g + rest.length + 1) n0 (chainRestToks Tok.tand rest)]
    exact parseConjunctionRest_chain rest g (.proposition n0)
  have hdisj : parseDisjunction (g + rest.length + 6) (chainToks Tok.tand n0 rest) =
      some (foldChain .conjunction n0 rest, []) := by
    show parseDisjunction ((g + rest.length + 5) + 1) (chainToks Tok.tand n0 rest) = _
    simp only [parseDisjunction]
    rw [hconj]
    exact parseDisjunctionRest_stop (g + rest.length + 4) _ [] (by simp)
  have himpl : parseImplication (g + rest.length + 7) (chainToks Tok.tand n0 rest) =
      some (foldChain .conjunction n0 rest, []) := by
    show parseImplication ((g + rest.length + 6) + 1) (chainToks Tok.tand n0 rest) = _
    simp only [parseImplication]
    rw [hdisj]
    exact parseImplicationRest_stop (g + rest.length + 5) _ [] (by simp)
  have hequiv : parseEquivalence (g + rest.length + 8) (chainToks Tok.tand n0 rest) =
      some (foldChain .conjunction n0 rest, []) := by
    show parseEquivalence ((g + rest.length + 7) + 1) (chainToks Tok.tand n0 rest) = _
    simp only [parseEquivalence]
    rw [himpl]
    exact parseEquivalenceRest_stop (g + rest.length + 6) _ [] (by simp)
  show parseExpression ((g + rest.length + 8) + 1) (chainToks Tok.tand n0 rest) = _
  simp only [parseExpression]
  exact hequiv

/-- A `|`-chain parsed from the `expression` entry point. -/
theorem parseExpression_or_chain (g : Nat) (n0 : String) (rest : List String) :
    parseExpression (g + rest.length + 10) (chainToks Tok.tor n0 rest) =
      some (foldChain .disjunction n0 rest, []) := by
  have hdisj : parseDisjunction (g + rest.length + 7) (chainToks Tok.tor n0 rest) =
      some (foldChain .disjunction n0 rest, []) := by
    show parseDisjunction ((g + rest.length + 6) + 1)
      (Tok.name n0 :: chainRestToks Tok.tor rest) = _
    simp only [parseDisjunction]
    rw [parseConjunction_name (g + rest.length + 1) n0 (chainRestToks Tok.tor rest)
      (chainRestToks_head_ne Tok.tor Tok.tand rest (by decide))]
    exact parseDisjunctionRest_chain rest g (.proposition n0)
  have himpl : parseImplication (g + rest.length + 8) (chainToks Tok.tor n0 rest) =
      some (foldChain .disjunction n0 rest, []) := by
    show parseImplication ((g + rest.length + 7) + 1) (chainToks Tok.tor n0 rest) = _
    simp only [parseImplication]
    rw [hdisj]
    exact parseImplicationRest_stop (g + rest.length + 6) _ [] (by simp)
  have hequiv : parseEquivalence (g + rest.length + 9) (chainToks Tok.tor n0 rest) =
      some (foldChain .disjunction n0 rest, []) := by
    show parseEquivalence ((g + rest.length + 8) + 1) (chainToks Tok.tor n0 rest) = _
    simp only [parseEquivalence]
    rw [himpl]
    exact parseEquivalenceRest_stop (g + rest.length + 7) _ [] (by simp)
  show parseExpression ((g + rest.length + 9) + 1) (chainToks Tok.tor n0 rest) = _
  simp only [parseExpression]
  exact hequiv

/-- A `->`-chain parsed from the `expression` entry point. -/
theorem parseExpression_impl_chain (g : Nat) (n0 : String) (rest : List String) :
    parseExpression (g + rest.length + 11) (chainToks Tok.timpl n0 rest) =
      some (foldChain .implication n0 rest, []) := by
  have himpl : parseImplication (g + rest.length + 9) (chainToks Tok.timpl n0 rest) =
      some (foldChain .implication n0 rest, []) := by
    show parseImplication ((g + rest.length + 8) + 1)
      (Tok.name n0 :: chainRestToks Tok.timpl rest) = _
    simp only [parseImplication]
    rw [parseDisjunction_name (g + rest.length + 1) n0 (chainRestToks Tok.timpl rest)
      (chainRestToks_head_ne Tok.timpl Tok.tand rest (by decide))
      (chainRestToks_head_ne Tok.timpl Tok.tor rest (by decide))]
    exact parseImplicationRest_chain rest g (.proposition n0)
  have hequiv : parseEquivalence (g + rest.length + 10) (chainToks Tok.timpl n0 rest) =
      some (foldChain .implication n0 rest, []) := by
    show parseEquivalence ((g + rest.length + 9) + 1) (chainToks Tok.timpl n0 rest) = _
    simp only [parseEquivalence]
    rw [himpl]
    exact parseEquivalenceRest_stop (g + rest.length + 8) _ [] (by simp)
  show parseExpression ((g + rest.length + 10) + 1) (chainToks Tok.timpl n0 rest) = _
  simp only [parseExpression]
  exact hequiv

/-- A `<->`-chain parsed from the `expression` entry point. -/
theorem parseExpression_equiv_chain (g : Nat) (n0 : String) (rest : List String) :
    parseExpression (g + rest.length + 12) (chainToks Tok.tequiv n0 rest) =
      some (foldChain .equivalence n0 rest, []) := by
  have hequiv : parseEquivalence (g + rest.length + 11) (chainToks Tok.tequiv n0 rest) =
      some (foldChain .equivalence n0 rest, []) := by
    show parseEquivalence ((g + rest.length + 10) + 1)
      (Tok.name n0 :: chainRestToks Tok.tequiv rest) = _
    simp only [parseEquivalence]
    rw [parseImplication_name (g + rest.length + 1) n0 (chainRestToks Tok.tequiv rest)
      (chainRestToks_head_ne Tok.tequiv Tok.tand rest (by decide))
      (chainRestToks_head_ne Tok.tequiv Tok.tor rest (by decide))
      (chainRestToks_head_ne Tok.tequiv Tok.timpl rest (by decide))]
    exact parseEquivalenceRest_chain rest g (.proposition n0)
  show parseExpression ((g + rest.length + 11) + 1) (chainToks Tok.tequiv n0 rest) = _
  simp only [parseExpression]
  exact hequiv

theorem chainToks_length (op : Tok) (n0 : String) (rest : List String) :
    (chainToks op n0 rest).length = 2 * rest.length + 1 := by
  simp [chainToks, chainRestToks_length]

/-- Full-stream parsing of an `&`-chain: the left-associated fold. -/
theorem parseTokens_and_chain (n0 : String) (rest : List String) :
    parseTokens (chainToks Tok.tand n0 rest) = some (foldChain .conjunction n0 rest) := by
  unfold parseTokens
  have harith : 16 * (chainToks Tok.tand n0 rest).length + 16 =
      (31 * rest.length + 23) + rest.length + 9 := by
    rw [chainToks_length]; omega
  rw [harith, parseExpression_and_chain (31 * rest.length + 23) n0 rest]

/-- Full-stream parsing of a `|`-chain: the left-associated fold. -/
theorem parseTokens_or_chain (n0 : String) (rest : List String) :
    parseTokens (chainToks Tok.tor n0 rest) = some (foldChain .disjunction n0 rest) := by
  unfold parseTokens
  have harith : 16 * (chainToks Tok.tor n0 rest).length + 16 =
      (31 * rest.length + 22) + rest.length + 10 := by
    rw [chainToks_length]; omega
  rw [harith, parseExpression_or_chain (31 * rest.length + 22) n0 rest]

/-- Full-stream parsing of a `->`-chain: the left-associated fold. -/
theorem parseTokens_impl_chain (n0 : String) (rest : List String) :
    parseTokens (chainToks Tok.timpl n0 rest) = some (foldChain .implication n0 rest) := by
  unfold parseTokens
  have harith : 16 * (chainToks Tok.timpl n0 rest).length + 16 =
      (31 * rest.length + 21) + rest.length + 11 := by
    rw [chainToks_length]; omega
  rw [harith, parseExpression_impl_chain (31 * rest.length + 21) n0 rest]

/-- Full-stream parsing of a `<->`-chain: the left-associated fold. -/
theorem parseTokens_equiv_chain (n0 : String) (rest : List String) :
    parseTokens (chainToks Tok.tequiv n0 rest) = some (foldChain .equivalence n0 rest) := by
  unfold parseTokens
  have harith : 16 * (chainToks Tok.tequiv n0 rest).length + 16 =
      (31 * rest.length + 20) + rest.length + 12 := by
    rw [chainToks_length]; omega
  rw [harith, parseExpression_equiv_chain (31 * rest.length + 20) n0 rest]

end NeuroSymbolic

/-- C8: chains of one binary operator parse left-associated (for arbitrary
chains at the token level and for `"a & b & c"` at the string level), and
the operators bind lowest to highest `<->`, `->`, `|`, `&`, with the unary
`~`, `[]`, `<>` binding tighter than every binary operator and nesting. -/
theorem C8_parse_left_assoc_and_precedence :
    (∀ (n0 : String) (rest : List String),
      NeuroSymbolic.parseTokens (NeuroSymbolic.chainToks NeuroSymbolic.Tok.tand n0 rest) =
        some (NeuroSymbolic.foldChain .conjunction n0 rest)) ∧
    (∀ (n0 : String) (rest : List String),
      NeuroSymbolic.parseTokens (NeuroSymbolic.chainToks NeuroSymbolic.Tok.tor n0 rest) =
        some (NeuroSymbolic.foldChain .disjunction n0 rest)) ∧
    (∀ (n0 : String) (rest : List String),
      NeuroSymbolic.parseTokens (NeuroSymbolic.chainToks NeuroSymbolic.Tok.timpl n0 rest) =
        some (NeuroSymbolic.foldChain .implication n0 rest)) ∧
    (∀ (n0 : String) (rest : List String),
      NeuroSymbolic.parseTokens (NeuroSymbolic.chainToks NeuroSymbolic.Tok.tequiv n0 rest) =
        some (NeuroSymbolic.foldChain .equivalence n0 rest)) ∧
    NeuroSymbolic.parse "a & b & c" =
      some (.conjunction (.conjunction (.proposition "a") (.proposition "b"))
        (.proposition "c")) ∧
    NeuroSymbolic.parse "a | b | c" =
      some (.disjunction (.disjunction (.proposition "a") (.proposition "b"))
        (.proposition "c")) ∧
    NeuroSymbolic.parse "a -> b -> c" =
      some (.implication (.implication (.proposition "a") (.proposition "b"))
        (.proposition "c")) ∧
    NeuroSymbolic.parse "a <-> b <-> c" =
      some (.equivalence (.equivalence (.proposition "a") (.proposition "b"))
        (.proposition "c")) ∧
    NeuroSymbolic.parse "a <-> b -> c | d & ~e" =
      some (.equivalence (.proposition "a")
        (.implication (.proposition "b")
          (.disjunction (.proposition "c")
            (.conjunction (.proposition "d") (.negation (.proposition "e")))))) ∧
    NeuroSymbolic.parse "~a & b" =
      some (.conjunction (.negation (.proposition "a")) (.proposition "b")) ∧
    NeuroSymbolic.parse "[]a -> b" =
      some (.implication (.necessity (.proposition "a")) (.proposition "b")) ∧
    NeuroSymbolic.parse "<>a | b" =
      some (.disjunction (.possibility (.proposition "a")) (.proposition "b")) ∧
    NeuroSymbolic.parse "~[]p" = some (.negation (.necessity (.proposition "p"))) ∧
    NeuroSymbolic.parse "<>~q" = some (.possibility (.negation (.proposition "q"))) ∧
    NeuroSymbolic.parse "[]<>p" = some (.necessity (.possibility (.proposition "p"))) :=
  ⟨NeuroSymbolic.parseTokens_and_chain, NeuroSymbolic.parseTokens_or_chain,
    NeuroSymbolic.parseTokens_impl_chain, NeuroSymbolic.parseTokens_equiv_chain,
    by rfl, by rfl, by rfl, by rfl, by rfl, by rfl, by rfl, by rfl, by rfl, by rfl, by rfl⟩

namespace NeuroSymbolic

/-!
Heap-based embedding for the frame property of `_is_hypothesis_valid`.
Python's valuation sets are mutable objects: `KripkeModel.copy` deep-copies
them (`copy.deepcopy`), and the consistency check then mutates the copy's
set via `setdefault(...).add(...)`.  Here each valuation set lives in a heap
cell addressed by index; `deepcopyVals` allocates fresh cells, so the
subsequent write never touches a cell reachable from the original model. -/

/-- The store of proposition-set objects; a reference is an index. -/
structure Heap where
  data : List (List String)

/-- Dereference a set object (out-of-range reads yield the empty set; the
well-formedness hypothesis of the theorem rules them out for live models). -/
def readSet (h : Heap) (r : Nat) : List String :=
  h.data.getD r []

/-- A Kripke model whose valuation sets are heap references. -/
structure RKripkeModel where
  worlds : List String
  relations : List (String × String)
  valuations : List (String × Nat)
  current_world : String

/-- The pure value of a referenced model under a heap. -/
def readModel (m : RKripkeModel) (h : Heap) : KripkeModel :=
  { worlds := m.worlds,
    relations := m.relations,
    valuations := m.valuations.map (fun e => (e.1, readSet h e.2)),
    current_world := m.current_world }

/-- The `copy.deepcopy` of the valuations dict: every set object is copied into
a freshly allocated cell. -/
def deepcopyVals : List (String × Nat) → Heap → List (String × Nat) × Heap
  | [], h => ([], h)
  | (w, r) :: t, h =>
    let res := deepcopyVals t ⟨h.data ++ [readSet h r]⟩
    ((w, h.data.length) :: res.1, res.2)

/-- The `KripkeModel.copy` from `modal_logic.py` on the heap embedding: worlds,
relations and the current world are immutable values; the valuations dict
and its sets are deep-copied. -/
def KripkeModel_copy_ref (m : RKripkeModel) (h : Heap) : RKripkeModel × Heap :=
  let res := deepcopyVals m.valuations h
  ({ m with valuations := res.1 }, res.2)

/-- The `hypothetical_model.valuations.setdefault(current_world, set()).add(p)`:
mutate the current world's set in place, or allocate a fresh singleton cell
when the key is absent. -/
def setdefault_add (c : RKripkeModel) (p : String) (h : Heap) :
    RKripkeModel × Heap :=
  match List.lookup c.current_world c.valuations with
  | some r => (c, ⟨h.data.set r (setInsert p (readSet h r))⟩)
  | none =>
    ({ c with valuations := c.valuations ++ [(c.current_world, h.data.length)] },
      ⟨h.data ++ [[p]]⟩)

/-- The `_is_hypothesis_valid` on the heap embedding: deep-copy, extend the
copy's current world, then run the (read-only) rule checks on the value the
copy denotes.  The returned heap is the post-call store. -/
def is_hypothesis_valid_ref (m : RKripkeModel) (rules : List String)
    (p : String) (h : Heap) : Option Bool × Heap :=
  if rules.isEmpty then (some true, h)
  else
    let copied := KripkeModel_copy_ref m h
    let extended := setdefault_add copied.1 p copied.2
    (checkRules (readModel extended.1 extended.2) rules, extended.2)

theorem getD_set_ne' :
    ∀ (l : List (List String)) (r i : Nat) (x : List String), i ≠ r →
      (l.set r x).getD i [] = l.getD i [] := by
  intro l
  induction l with
  | nil => intro r i x _; rfl
  | cons a t ih =>
    intro r i x h
    cases r with
    | zero =>
      cases i with
      | zero => exact absurd rfl h
      | succ j => rfl
    | succ r' =>
      cases i with
      | zero => rfl
      | succ j => exact ih r' j x (fun hh => h (by rw [hh]))

theorem getD_append_left' :
    ∀ (l1 l2 : List (List String)) (i : Nat), i < l1.length →
      (l1 ++ l2).getD i [] = l1.getD i [] := by
  intro l1
  induction l1 with
  | nil => intro l2 i h; exact absurd h (Nat.not_lt_zero i)
  | cons a t ih =>
    intro l2 i h
    cases i with
    | zero => rfl
    | succ j => exact ih l2 j (by simp at h; omega)

theorem lookup_mem :
    ∀ (l : List (String × Nat)) (k : String) (v : Nat),
      List.lookup k l = some v → (k, v) ∈ l := by
  intro l
  induction l with
  | nil => intro k v hkv; cases hkv
  | cons a t ih =>
    intro k v hkv
    cases a with
    | mk k' v' =>
      by_cases hk : k = k'
      · subst hk
        have heq : List.lookup k ((k, v') :: t) = some v' := by simp [List.lookup]
        rw [heq] at hkv
        injection hkv with hv
        subst hv
        exact List.mem_cons_self _ _
      · have hb : (k == k') = false := by simp [hk]
        have heq : List.lookup k ((k', v') :: t) = List.lookup k t := by
          simp [List.lookup, hb]
        rw [heq] at hkv
        exact List.mem_cons_of_mem _ (ih k v hkv)

theorem map_congr_mem {α β : Type} (l : List α) (f g : α → β)
    (h : ∀ a ∈ l, f a = g a) : l.map f = l.map g := by
  induction l with
  | nil => rfl
  | cons a t ih =>
    rw [List.map_cons, List.map_cons, h a (List.mem_cons_self a t),
      ih (fun b hb => h b (List.mem_cons_of_mem a hb))]

/-- Deep-copying only appends fresh cells to the heap. -/
theorem deepcopyVals_extends :
    ∀ (vs : List (String × Nat)) (h : Heap),
      ∃ ext, (deepcopyVals vs h).2.data = h.data ++ ext := by
  intro vs
  induction vs with
  | nil => intro h; exact ⟨[], by simp [deepcopyVals]⟩
  | cons a t ih =>
    intro h
    cases a with
    | mk w r =>
      obtain ⟨ext, hext⟩ := ih ⟨h.data ++ [readSet h r]⟩
      refine ⟨[readSet h r] ++ ext, ?_⟩
      show (deepcopyVals t ⟨h.data ++ [readSet h r]⟩).2.data = _
      rw [hext]
      simp

/-- Every reference produced by the deep copy is fresh. -/
theorem deepcopyVals_refs_ge :
    ∀ (vs : List (String × Nat)) (h : Heap) (e : String × Nat),
      e ∈ (deepcopyVals vs h).1 → h.data.length ≤ e.2 := by
  intro vs
  induction vs with
  | nil => intro h e he; simp [deepcopyVals] at he
  | cons a t ih =>
    intro h e he
    cases a with
    | mk w r =>
      have he' : e = (w, h.data.length) ∨
          e ∈ (deepcopyVals t ⟨h.data ++ [readSet h r]⟩).1 := by
        simpa [deepcopyVals] using he
      rcases he' with he' | he'
      · rw [he']
      · have := ih ⟨h.data ++ [readSet h r]⟩ e he'
        simp at this
        omega

/-- The in-place insertion writes only to a cell of the given model. -/
theorem setdefault_add_reads (c : RKripkeModel) (h1 : Heap) (p : String)
    (i : Nat) (hi : i < h1.data.length)
    (hrefs : ∀ e ∈ c.valuations, i ≠ e.2) :
    readSet (setdefault_add c p h1).2 i = readSet h1 i := by
  unfold setdefault_add
  cases hlk : List.lookup c.current_world c.valuations with
  | some r =>
    show readSet ⟨h1.data.set r (setInsert p (readSet h1 r))⟩ i = readSet h1 i
    exact getD_set_ne' h1.data r i _ (hrefs _ (lookup_mem _ _ _ hlk))
  | none =>
    show readSet ⟨h1.data ++ [[p]]⟩ i = readSet h1 i
    exact getD_append_left' h1.data [[p]] i hi

/-- Cells live before the call read the same after copy-and-extend. -/
theorem copy_then_add_reads (m : RKripkeModel) (h : Heap) (p : String)
    (i : Nat) (hi : i < h.data.length) :
    readSet (setdefault_add (KripkeModel_copy_ref m h).1 p
      (KripkeModel_copy_ref m h).2).2 i = readSet h i := by
  obtain ⟨ext, hext⟩ := deepcopyVals_extends m.valuations h
  have h1 : readSet (KripkeModel_copy_ref m h).2 i = readSet h i := by
    show readSet (deepcopyVals m.valuations h).2 i = readSet h i
    show (deepcopyVals m.valuations h).2.data.getD i [] = readSet h i
    rw [hext]
    exact getD_append_left' h.data ext i hi
  have hi2 : i < (KripkeModel_copy_ref m h).2.data.length := by
    show i < (deepcopyVals m.valuations h).2.data.length
    rw [hext]
    simp
    omega
  have hrefs : ∀ e ∈ (KripkeModel_copy_ref m h).1.valuations, i ≠ e.2 := by
    intro e he
    have hge := deepcopyVals_refs_ge m.valuations h e he
    omega
  calc readSet (setdefault_add (KripkeModel_copy_ref m h).1 p
        (KripkeModel_copy_ref m h).2).2 i
      = readSet (KripkeModel_copy_ref m h).2 i :=
        setdefault_add_reads _ _ p i hi2 hrefs
    _ = readSet h i := h1

end NeuroSymbolic

/-- C4: the rule consistency check never mutates the model it is given —
for every well-formed heap state (all valuation references live), rule set
and candidate proposition, the original model's denoted worlds, relations,
valuations and current world, and hence its serialized form, are identical
before and after the call; all additions happen on the deep copy. -/
theorem C4_rule_check_nonmutating (m : NeuroSymbolic.RKripkeModel)
    (h : NeuroSymbolic.Heap) (rules : List String) (p : String)
    (hwf : ∀ e ∈ m.valuations, e.2 < h.data.length) :
    NeuroSymbolic.readModel m
        (NeuroSymbolic.is_hypothesis_valid_ref m rules p h).2 =
      NeuroSymbolic.readModel m h ∧
    (NeuroSymbolic.readModel m
        (NeuroSymbolic.is_hypothesis_valid_ref m rules p h).2).to_dict =
      (NeuroSymbolic.readModel m h).to_dict := by
  have hmain : NeuroSymbolic.readModel m
      (NeuroSymbolic.is_hypothesis_valid_ref m rules p h).2 =
      NeuroSymbolic.readModel m h := by
    by_cases hre : rules.isEmpty = true
    · simp [NeuroSymbolic.is_hypothesis_valid_ref, hre]
    · have hheap : (NeuroSymbolic.is_hypothesis_valid_ref m rules p h).2 =
          (NeuroSymbolic.setdefault_add (NeuroSymbolic.KripkeModel_copy_ref m h).1 p
            (NeuroSymbolic.KripkeModel_copy_ref m h).2).2 := by
        simp [NeuroSymbolic.is_hypothesis_valid_ref, hre]
      rw [hheap]
      unfold NeuroSymbolic.readModel
      rw [NeuroSymbolic.map_congr_mem m.valuations _ _
        (fun e he => by
          rw [NeuroSymbolic.copy_then_add_reads m h p e.2 (hwf e he)])]
  exact ⟨hmain, by rw [hmain]⟩

/-- Witness for C4 at a concrete one-world model and heap. -/
theorem C4_rule_check_nonmutating_witness :
    (∀ e ∈ (⟨["w0"], [], [("w0", 0)], "w0"⟩ :
        NeuroSymbolic.RKripkeModel).valuations,
      e.2 < (⟨[["klystron_fault_reported"]]⟩ : NeuroSymbolic.Heap).data.length) ∧
    NeuroSymbolic.readModel ⟨["w0"], [], [("w0", 0)], "w0"⟩
        (NeuroSymbolic.is_hypothesis_valid_ref ⟨["w0"], [], [("w0", 0)], "w0"⟩
          ["[] ~(cooling_fault_reported & klystron_fault_reported)"]
          "cooling_fault_reported" ⟨[["klystron_fault_reported"]]⟩).2 =
      NeuroSymbolic.readModel ⟨["w0"], [], [("w0", 0)], "w0"⟩
        ⟨[["klystron_fault_reported"]]⟩ := by
  constructor
  · decide
  · exact (C4_rule_check_nonmutating ⟨["w0"], [], [("w0", 0)], "w0"⟩
      ⟨[["klystron_fault_reported"]]⟩
      ["[] ~(cooling_fault_reported & klystron_fault_reported)"]
      "cooling_fault_reported" (by decide)).1
